import Mathlib

/-!
Shallow embedding of the roblog comment/attachment subsystem.

Sources embedded:
- src/lib/imageUpload.ts        (validator, attachment store client, preview handles)
- src/features/comment/commentService.ts
- src/features/comment/commentSlice.ts and commentThunks.ts
- src/features/comment/useComments hook (effect, realtime subscription, edit session)
- src/features/blog/blogSlice.ts (deleteBlog thunk)
- database schema for the comments table (README schema: created_at and
  updated_at both DEFAULT NOW())

External collaborators (the platform URL parser, the blob store's
success/failure on upload/remove, the database's success/failure on row
operations, clock values) are modelled as explicit parameters/oracles so the
theorems quantify over every behaviour of those collaborators.
-/

namespace Roblog

/-! ## Files and the attachment validator (src/lib/imageUpload.ts) -/

/-- A candidate file: declared MIME type (the source field `type`), byte
size, and original name. -/
structure FileData where
  name : String
  mimeType : String
  size : Nat
deriving DecidableEq, Repr

/-- `MAX_FILE_SIZE = 5 * 1024 * 1024` from imageUpload.ts. -/
def MAX_FILE_SIZE : Nat := 5 * 1024 * 1024

/-- `ALLOWED_TYPES` from imageUpload.ts. -/
def ALLOWED_TYPES : List String :=
  ["image/jpeg", "image/png", "image/webp", "image/gif"]

/-- `BUCKET_NAME` from imageUpload.ts. -/
def BUCKET_NAME : String := "blog-images"

def invalidTypeMsg : String :=
  "Invalid file type. Please upload JPEG, PNG, WebP, or GIF images."

def tooLargeMsg : String := "File too large. Maximum size is 5MB."

/-- `validateImageFile`: returns an error message if invalid, none if valid.
Type is checked first, then size, as in the source. -/
def validateImageFile (file : FileData) : Option String :=
  if ¬ (ALLOWED_TYPES.contains file.mimeType) then some invalidTypeMsg
  else if file.size > MAX_FILE_SIZE then some tooLargeMsg
  else none

/-! ## Attachment store client: upload -/

/-- JS `String.prototype.split(sep)` for a one-character separator, by
structural recursion over the characters ("a/b" gives ["a", "b"], "" gives
[""], a leading separator gives a leading empty segment). -/
def splitChars (sep : Char) : List Char → List Char → List String
  | [], acc => [String.mk acc.reverse]
  | c :: rest, acc =>
      if c = sep then String.mk acc.reverse :: splitChars sep rest []
      else splitChars sep rest (c :: acc)

/-- `s.split(sep)` on a string. -/
def jsSplit (sep : Char) (s : String) : List String := splitChars sep s.data []

/-- JS `Array.prototype.join(sep)`. -/
def joinSegments (sep : String) : List String → String
  | [] => ""
  | [x] => x
  | x :: y :: xs => x ++ sep ++ joinSegments sep (y :: xs)

/-- `file.name.split('.').pop()` — the last dot-separated component. -/
def fileExt (name : String) : String := (jsSplit '.' name).getLastD ""

/-- The object path built by `uploadImage`:
`filePath = userId + "/" + userId + "_" + timestamp + "." + ext`. -/
def uploadFilePath (userId : String) (timestamp : Nat) (origName : String) : String :=
  userId ++ "/" ++ userId ++ "_" ++ toString timestamp ++ "." ++ fileExt origName

/-- Environment for one `uploadImage` call: the clock value `Date.now()`,
the storage outcome (`none` = upload succeeded, `some msg` = storage error
message), and the platform's public-URL derivation. -/
structure UploadEnv where
  timestamp : Nat
  uploadErr : Option String
  publicUrlOf : String → String

/-- Result of `uploadImage`: the returned public URL or the thrown error,
plus the log of paths passed to `storage.upload` (empty when validation
throws first). -/
structure UploadOutcome where
  result : Except String String
  storageCalls : List String
deriving Repr

/-- `uploadImage(file, userId)`: validates, then uploads to the derived
path, then derives the public URL. -/
def uploadImage (env : UploadEnv) (file : FileData) (userId : String) : UploadOutcome :=
  match validateImageFile file with
  | some e => ⟨.error e, []⟩
  | none =>
    let filePath := uploadFilePath userId env.timestamp file.name
    match env.uploadErr with
    | some msg => ⟨.error ("Upload failed: " ++ msg), [filePath]⟩
    | none => ⟨.ok (env.publicUrlOf filePath), [filePath]⟩

/-! ## Attachment store client: delete

`deleteImage(imageUrl)` parses the URL via the platform `new URL(...)`
(modelled as an oracle `parseUrlPath : String → Option String` giving the
pathname, `none` when the constructor throws), splits the pathname on "/",
finds the first occurrence of the bucket name, joins the rest as the file
path, and calls `storage.remove([filePath])`. A remove error is logged, not
thrown; every throw inside the body is caught by the outer try/catch. The
blob store is modelled as the list of stored paths; `removeOk` is the
per-path success oracle of the store's remove operation. -/

/-- The pathname-to-filePath derivation inside `deleteImage`
(`indexOf(BUCKET_NAME)`, throw "Invalid image URL" on -1, else join the
remaining segments). -/
def derivedFilePath (pathname : String) : Except String String :=
  let pathParts := jsSplit '/' pathname
  match pathParts.findIdx? (· == BUCKET_NAME) with
  | none => .error "Invalid image URL"
  | some bucketIndex =>
      .ok (joinSegments "/" (pathParts.drop (bucketIndex + 1)))

/-- `storage.remove([path])`: removes the path when the store reports
success; on a store error the code logs and keeps going, leaving the store
as the store left it (unchanged in the model). -/
def removeFromStorage (removeOk : String → Bool) (store : List String)
    (path : String) : List String :=
  if removeOk path then store.filter (fun p => p ≠ path) else store

/-- The body of the try block in `deleteImage`. Only the URL-parse failure
and the missing-bucket check throw; the remove error is absorbed inline. -/
def deleteImageTry (parseUrlPath : String → Option String)
    (removeOk : String → Bool) (store : List String) (imageUrl : String) :
    Except String (List String) :=
  match parseUrlPath imageUrl with
  | none => .error "TypeError: Invalid URL"
  | some pathname =>
    match derivedFilePath pathname with
    | .error e => .error e
    | .ok filePath => .ok (removeFromStorage removeOk store filePath)

/-- `deleteImage`: the outer catch logs every error and returns normally. -/
def deleteImage (parseUrlPath : String → Option String)
    (removeOk : String → Bool) (store : List String) (imageUrl : String) :
    Except String (List String) :=
  match deleteImageTry parseUrlPath removeOk store imageUrl with
  | .ok s => .ok s
  | .error _ => .ok store

/-- The blob store state after a `deleteImage` call. -/
def deleteImageStore (parseUrlPath : String → Option String)
    (removeOk : String → Bool) (store : List String) (imageUrl : String) :
    List String :=
  match deleteImageTry parseUrlPath removeOk store imageUrl with
  | .ok s => s
  | .error _ => store

/-! ## Comment data model and redux slice
(src/types Comment/CommentState, commentSlice.ts) -/

/-- The `Comment` record as used by the client (the TS interface). -/
structure Comment where
  id : String
  blog_id : String
  author_id : String
  content : String
  image_url : Option String
  created_at : Nat
deriving DecidableEq, Repr

/-- `CommentState`: the thread view state of the comment slice. -/
structure CommentState where
  comments : List Comment
  loading : Bool
  error : Option String
deriving DecidableEq, Repr

/-- `initialState` of the comment slice. -/
def commentInitialState : CommentState := ⟨[], false, none⟩

/-- Reducer `clearComments`. -/
def clearComments (_s : CommentState) : CommentState := ⟨[], false, none⟩

/-- Reducer for `fetchComments.pending`. -/
def fetchPending (s : CommentState) : CommentState :=
  { s with loading := true, error := none }

/-- Reducer for `fetchComments.fulfilled`. -/
def fetchFulfilled (s : CommentState) (payload : List Comment) : CommentState :=
  { s with loading := false, comments := payload }

/-- Reducer for `fetchComments.rejected`: `action.error.name` and
`action.payload` (the repository message passed to `rejectWithValue`, or
none on an abort). -/
def fetchRejected (s : CommentState) (errName : String)
    (payload : Option String) : CommentState :=
  let s1 := { s with loading := false }
  if errName ≠ "AbortError" then { s1 with error := payload } else s1

/-! ## Comment repository service (commentService.ts)

Database and storage outcomes are oracles: `uploadErr`/`removeOk` for the
blob store, explicit `Option String` parameters for each row operation's
error. Clock values (`Date.now()`, `new Date().toISOString()`) are an
abstract `timestamp : Nat`. -/

/-- Environment shared by the service calls that touch storage. -/
structure ServiceEnv where
  parseUrlPath : String → Option String
  removeOk : String → Bool
  uploadErr : Option String
  timestamp : Nat
  publicUrlOf : String → String

/-- The row payload `createComment` inserts. It carries no timestamps: the
database defaults stamp `created_at` and `updated_at`. -/
structure InsertPayload where
  blog_id : String
  author_id : String
  content : String
  image_url : Option String
deriving DecidableEq, Repr

/-- The row payload `updateComment` sends, `updated_at` included. -/
structure UpdatePayload where
  content : String
  image_url : Option String
  updated_at : Nat
deriving DecidableEq, Repr

structure CreateOutcome where
  result : Except String InsertPayload
  uploadCalls : List String
deriving Repr

/-- `createComment(blogId, authorId, content, file)`: uploads the optional
file under the author's id, then inserts the row (`content || ''` is the
identity here since the model's strings are never null). -/
def createComment (env : ServiceEnv) (dbErr : Option String)
    (blogId authorId content : String) (file : Option FileData) :
    CreateOutcome :=
  match file with
  | some f =>
    let up := uploadImage ⟨env.timestamp, env.uploadErr, env.publicUrlOf⟩ f authorId
    match up.result with
    | .error e => ⟨.error e, up.storageCalls⟩
    | .ok url =>
      match dbErr with
      | some e => ⟨.error e, up.storageCalls⟩
      | none => ⟨.ok ⟨blogId, authorId, content, some url⟩, up.storageCalls⟩
  | none =>
    match dbErr with
    | some e => ⟨.error e, []⟩
    | none => ⟨.ok ⟨blogId, authorId, content, none⟩, []⟩

structure UpdateOutcome where
  result : Except String UpdatePayload
  uploadCalls : List String
  store : List String
deriving Repr

/-- `updateComment(commentId, content, newFile, oldImageUrl, keepOldImage)`:
1. if a new file is provided, delete the old blob then upload the new file
   — with `'updated'` as the userId argument of `uploadImage`;
2. else if the user explicitly removed the image, delete the old blob and
   persist a null reference;
then send the update payload with a fresh `updated_at`. -/
def updateComment (env : ServiceEnv) (dbErr : Option String)
    (store : List String) (_commentId : String) (content : String)
    (newFile : Option FileData) (oldImageUrl : Option String)
    (keepOldImage : Bool) : UpdateOutcome :=
  match newFile with
  | some f =>
    let store1 := match oldImageUrl with
      | some u => deleteImageStore env.parseUrlPath env.removeOk store u
      | none => store
    let up := uploadImage ⟨env.timestamp, env.uploadErr, env.publicUrlOf⟩ f "updated"
    match up.result with
    | .error e => ⟨.error e, up.storageCalls, store1⟩
    | .ok url =>
      match dbErr with
      | some e => ⟨.error e, up.storageCalls, store1⟩
      | none => ⟨.ok ⟨content, some url, env.timestamp⟩, up.storageCalls, store1⟩
  | none =>
    if ¬keepOldImage ∧ oldImageUrl.isSome then
      let store1 := match oldImageUrl with
        | some u => deleteImageStore env.parseUrlPath env.removeOk store u
        | none => store
      match dbErr with
      | some e => ⟨.error e, [], store1⟩
      | none => ⟨.ok ⟨content, none, env.timestamp⟩, [], store1⟩
    else
      match dbErr with
      | some e => ⟨.error e, [], store⟩
      | none => ⟨.ok ⟨content, oldImageUrl, env.timestamp⟩, [], store⟩

structure DeleteOutcome where
  result : Except String String
  store : List String
deriving Repr

/-- `deleteComment(commentId, imageUrl?)`: deletes the row first (throwing
on a row error), then best-effort deletes the blob, then returns the id. -/
def deleteComment (env : ServiceEnv) (rowDeleteErr : Option String)
    (store : List String) (commentId : String) (imageUrl : Option String) :
    DeleteOutcome :=
  match rowDeleteErr with
  | some e => ⟨.error e, store⟩
  | none =>
    match imageUrl with
    | some url =>
        ⟨.ok commentId, deleteImageStore env.parseUrlPath env.removeOk store url⟩
    | none => ⟨.ok commentId, store⟩

/-! ## The comments table row (README schema: `created_at` and
`updated_at` both `TIMESTAMP WITH TIME ZONE DEFAULT NOW()`). -/

/-- A comments-table row; clock values are abstract naturals. -/
structure CommentRow where
  content : String
  image_url : Option String
  created_at : Nat
  updated_at : Nat
deriving DecidableEq, Repr

/-- Insertion: `createComment` sends no timestamps, so the database
defaults stamp both columns with the same `NOW()`. -/
def insertCommentRow (content : String) (img : Option String) (now : Nat) :
    CommentRow :=
  ⟨content, img, now, now⟩

/-- The row change performed by `updateComment`'s database write: content,
image reference and a fresh `updated_at`. -/
def applyUpdate (row : CommentRow) (content : String) (img : Option String)
    (now : Nat) : CommentRow :=
  { row with content := content, image_url := img, updated_at := now }

/-- A row after a sequence of edits (each edit: content, image, time). -/
def applyEdits (row : CommentRow) :
    List (String × Option String × Nat) → CommentRow
  | [] => row
  | e :: es => applyEdits (applyUpdate row e.1 e.2.1 e.2.2) es

/-! ## Edit session: the saveEdit guard (useComments) -/

/-- The argument record `saveEdit` dispatches to the `editComment` thunk. -/
structure EditDispatch where
  commentId : String
  content : String
  newFile : Option FileData
  oldImageUrl : Option String
  keepOldImage : Bool
deriving DecidableEq, Repr

/-- JS `String.prototype.trim`, by structural recursion over characters. -/
def jsTrim (s : String) : String :=
  String.mk
    (((s.data.dropWhile Char.isWhitespace).reverse.dropWhile
        Char.isWhitespace).reverse)

/-- `saveEdit(oldImageUrl)`: returns without any network call when no edit
session is active or when the draft would be empty text with no attachment
(`!editContent.trim() && !editFile && !keepOldImage`); otherwise dispatches
the `editComment` thunk with the draft. -/
def saveEdit (editingId : Option String) (editContent : String)
    (editFile : Option FileData) (keepOldImage : Bool)
    (oldImageUrl : Option String) : Option EditDispatch :=
  match editingId with
  | none => none
  | some cid =>
    if jsTrim editContent = "" ∧ editFile = none ∧ keepOldImage = false then
      none
    else some ⟨cid, editContent, editFile, oldImageUrl, keepOldImage⟩

/-! ## Preview handles and the form / edit-session transitions
(createPreviewUrl / revokePreviewUrl and the useComments handlers).
Object URLs are numbered handles; a comment's remote `image_url`, shown as
the edit preview when an edit starts, is not a handle. -/

inductive PreviewRef where
  | handle (n : Nat)
  | remote (url : String)
deriving DecidableEq, Repr

/-- The local state of the comment form and edit session, plus the ledger
of object-URL handles created and revoked so far. -/
structure PreviewWorld where
  selectedImage : Option FileData
  previewUrl : Option PreviewRef
  editingId : Option String
  editContent : String
  editFile : Option FileData
  editPreviewUrl : Option PreviewRef
  keepOldImage : Bool
  nextHandle : Nat
  created : List Nat
  revoked : List Nat
deriving DecidableEq, Repr

def initialPreviewWorld : PreviewWorld :=
  ⟨none, none, none, "", none, none, true, 0, [], []⟩

/-- `createPreviewUrl(file)` = `URL.createObjectURL`: a fresh handle. -/
def createHandle (w : PreviewWorld) : PreviewWorld × PreviewRef :=
  ({ w with nextHandle := w.nextHandle + 1,
            created := w.created ++ [w.nextHandle] },
   .handle w.nextHandle)

/-- `revokePreviewUrl(url)` = `URL.revokeObjectURL`: records the
revocation; on a non-object URL it is a no-op. -/
def revokeHandle (w : PreviewWorld) (r : PreviewRef) : PreviewWorld :=
  match r with
  | .handle n => { w with revoked := w.revoked ++ [n] }
  | .remote _ => w

/-- The user-driven transitions of the comment form and edit session. -/
inductive FormEvent where
  | imageSelect (file : FileData)
  | removeImage
  | startEdit (id : String) (content : String) (imageUrl : Option String)
  | editImageSelect (file : FileData)
  | removeEditImage
  | cancelEdit
  | unmountCleanup
deriving DecidableEq, Repr

/-- One transition, straight from the handlers in useComments:
`handleImageSelect` validates, revokes the previous creation-form handle
and creates a new one; `handleRemoveImage` revokes and clears;
`startEditing` seeds the edit preview with the comment's remote URL;
`handleEditImageSelect` creates a handle WITHOUT revoking the previous
edit preview; `handleRemoveEditImage` and `cancelEditing` clear the edit
preview WITHOUT revoking; the effect cleanup revokes only the
creation-form handle. -/
def formStep (w : PreviewWorld) : FormEvent → PreviewWorld
  | .imageSelect file =>
    match validateImageFile file with
    | some _ => w
    | none =>
      let w1 := match w.previewUrl with
        | some r => revokeHandle w r
        | none => w
      let p := createHandle { w1 with selectedImage := some file }
      { p.1 with previewUrl := some p.2 }
  | .removeImage =>
    let w1 := match w.previewUrl with
      | some r => revokeHandle w r
      | none => w
    { w1 with previewUrl := none, selectedImage := none }
  | .startEdit id content imageUrl =>
    { w with editingId := some id, editContent := content,
             editPreviewUrl := imageUrl.map PreviewRef.remote,
             keepOldImage := imageUrl.isSome, editFile := none }
  | .editImageSelect file =>
    let p := createHandle { w with editFile := some file }
    { p.1 with editPreviewUrl := some p.2, keepOldImage := false }
  | .removeEditImage =>
    { w with editFile := none, editPreviewUrl := none, keepOldImage := false }
  | .cancelEdit =>
    { w with editingId := none, editContent := "", editFile := none,
             editPreviewUrl := none, keepOldImage := true }
  | .unmountCleanup =>
    match w.previewUrl with
    | some r => revokeHandle w r
    | none => w

/-- A run of form events. -/
def runForm (w : PreviewWorld) (es : List FormEvent) : PreviewWorld :=
  es.foldl formStep w

/-! ## Thread synchronizer (the useComments effect, its realtime
subscription, and the comment slice reducers)

The effect for a `blogId` clears the list, dispatches a captured
`fetchComments(blogId)` promise, and opens one realtime channel; the
channel callback dispatches `fetchComments(blogId)` again WITHOUT
capturing the promise. The cleanup aborts only the captured promise
(redux-toolkit then settles it as rejected with name "AbortError" and
drops its late result), clears the list and removes the channel. A request
that was neither aborted nor already settled dispatches the fulfilled
reducer when its transport response arrives, whenever that is. -/

structure FetchRequest where
  blogId : String
  captured : Bool
  aborted : Bool
  settled : Bool
deriving DecidableEq, Repr

structure ThreadWorld where
  state : CommentState
  activeBlog : Option String
  requests : List FetchRequest
  capturedIdx : Option Nat
  channel : Option String
deriving DecidableEq, Repr

def initialThreadWorld : ThreadWorld := ⟨commentInitialState, none, [], none, none⟩

def modifyAt (l : List FetchRequest) (i : Nat)
    (f : FetchRequest → FetchRequest) : List FetchRequest :=
  match l.get? i with
  | some r => l.set i (f r)
  | none => l

/-- `dispatch(fetchComments(b))`: registers an in-flight request and fires
the pending reducer. -/
def dispatchFetch (w : ThreadWorld) (b : String) (captured : Bool) : ThreadWorld :=
  { w with state := fetchPending w.state,
           requests := w.requests ++ [⟨b, captured, false, false⟩],
           capturedIdx := if captured then some w.requests.length else w.capturedIdx }

/-- The effect cleanup: `fetchPromise.abort()` (settling the captured
promise as rejected "AbortError" if still pending), `clearComments`,
`removeChannel`. -/
def effectCleanup (w : ThreadWorld) : ThreadWorld :=
  let w1 := match w.capturedIdx with
    | some i =>
      match w.requests.get? i with
      | some r =>
        if r.settled then w
        else
          { w with
              requests := modifyAt w.requests i
                (fun q => { q with aborted := true, settled := true }),
              state := fetchRejected w.state "AbortError" none }
      | none => w
    | none => w
  { w1 with state := clearComments w1.state, channel := none,
            capturedIdx := none }

/-- The effect body for a blog id: clear, captured fetch, open channel. -/
def effectBody (w : ThreadWorld) (b : String) : ThreadWorld :=
  let w1 := { w with state := clearComments w.state }
  let w2 := dispatchFetch w1 b true
  { w2 with channel := some b, activeBlog := some b }

/-- Asynchronous history events: mounting/switching/unmounting the viewed
post, a realtime change notification, and transport completions of request
number `i` (out-of-order completion is an arbitrary interleaving of
`resolveOk`/`resolveErr` events). -/
inductive ThreadEvent where
  | mount (b : String)
  | switch (b : String)
  | unmount
  | realtime (b : String)
  | resolveOk (i : Nat)
  | resolveErr (i : Nat) (msg : String)
deriving DecidableEq, Repr

/-- One event; `db` maps a blog id to the repository's comment list. -/
def threadStep (db : String → List Comment) (w : ThreadWorld) :
    ThreadEvent → ThreadWorld
  | .mount b => effectBody w b
  | .switch b => effectBody (effectCleanup w) b
  | .unmount => { effectCleanup w with activeBlog := none }
  | .realtime b => if w.channel = some b then dispatchFetch w b false else w
  | .resolveOk i =>
    match w.requests.get? i with
    | some r =>
      if r.settled then w
      else
        { w with
            requests := modifyAt w.requests i (fun q => { q with settled := true }),
            state := fetchFulfilled w.state (db r.blogId) }
    | none => w
  | .resolveErr i msg =>
    match w.requests.get? i with
    | some r =>
      if r.settled then w
      else
        { w with
            requests := modifyAt w.requests i (fun q => { q with settled := true }),
            state := fetchRejected w.state "Rejected" (some msg) }
    | none => w

def runThread (db : String → List Comment) (w : ThreadWorld)
    (es : List ThreadEvent) : ThreadWorld :=
  es.foldl (threadStep db) w

/-- A two-post repository fixture for concrete runs. -/
def dbFix : String → List Comment := fun b =>
  if b = "A" then [⟨"cA", "A", "u1", "from A", none, 1⟩]
  else if b = "B" then [⟨"cB", "B", "u1", "from B", none, 2⟩]
  else []

/-! ## Cascading cleanup: the deleteBlog thunk (blogSlice.ts) -/

structure BlogRow where
  id : String
  image_url : Option String
deriving DecidableEq, Repr

structure CommentRowRef where
  blog_id : String
  image_url : Option String
deriving DecidableEq, Repr

structure Db where
  blogs : List BlogRow
  comments : List CommentRowRef
deriving DecidableEq, Repr

/-- Oracles for one `deleteBlog` run: the URL parser and per-path remove
success of the storage collaborator, and the error outcomes of the two
row queries that can fail after the blog row was found. -/
structure DeleteBlogEnv where
  parseUrlPath : String → Option String
  removeOk : String → Bool
  commentsQueryErr : Option String
  rowDeleteErr : Option String

structure DeleteBlogOutcome where
  result : Except String String
  deleteAttempts : List String
  store : List String
  db : Db
deriving Repr

/-- The best-effort loop over the referenced urls. `deleteImage` never
throws (its catch absorbs everything), so the surrounding try/catch in the
source can never abort this loop. -/
def deleteAllImages (env : DeleteBlogEnv) (store : List String) :
    List String → List String
  | [] => store
  | u :: us =>
      deleteAllImages env
        (deleteImageStore env.parseUrlPath env.removeOk store u) us

/-- `deleteBlog(id)`: read the post's `image_url` (`.single()` errors when
the row is missing), read the `image_url` of every comment with
`blog_id = id`, best-effort delete each referenced blob, then delete the
blog row (comments cascade). Any query error is returned via
`rejectWithValue`. -/
def deleteBlog (env : DeleteBlogEnv) (store : List String) (db : Db)
    (id : String) : DeleteBlogOutcome :=
  match db.blogs.find? (fun b => b.id == id) with
  | none => ⟨.error "blog fetch error", [], store, db⟩
  | some blogData =>
    match env.commentsQueryErr with
    | some e => ⟨.error e, [], store, db⟩
    | none =>
      let commentsData := db.comments.filter (fun c => c.blog_id == id)
      let refs :=
        (match blogData.image_url with | some u => [u] | none => []) ++
        commentsData.filterMap (fun c => c.image_url)
      let store1 := deleteAllImages env store refs
      match env.rowDeleteErr with
      | some e => ⟨.error e, refs, store1, db⟩
      | none =>
        ⟨.ok id, refs, store1,
          ⟨db.blogs.filter (fun b => ¬ (b.id == id)),
           db.comments.filter (fun c => ¬ (c.blog_id == id))⟩⟩

end Roblog

namespace Roblog

/-! ## Theorems -/

/-- C9 (validator part): `validateImageFile` accepts exactly the allowed
MIME types within the 5 MiB ceiling, returns the invalid-type error for a
disallowed type, and the too-large error for an allowed type over the
ceiling. -/
theorem validateImageFile_spec (file : FileData) :
    (validateImageFile file = none ↔
      file.mimeType ∈ ALLOWED_TYPES ∧ file.size ≤ MAX_FILE_SIZE) ∧
    (file.mimeType ∉ ALLOWED_TYPES →
      validateImageFile file = some invalidTypeMsg) ∧
    (file.mimeType ∈ ALLOWED_TYPES → file.size > MAX_FILE_SIZE →
      validateImageFile file = some tooLargeMsg) := by
  unfold validateImageFile
  have hmem : ALLOWED_TYPES.contains file.mimeType = true ↔
      file.mimeType ∈ ALLOWED_TYPES := List.elem_iff
  refine ⟨?_, ?_, ?_⟩
  · by_cases h : file.mimeType ∈ ALLOWED_TYPES
    · simp only [hmem, h, not_true, if_false]
      by_cases hs : file.size > MAX_FILE_SIZE
      · simp [hs]
      · simp [hs]
        omega
    · simp [hmem, h]
  · intro h
    simp [hmem, h]
  · intro h hsize
    simp [hmem, h]
    omega

/-- The outer catch of `deleteImage` always returns the mutated (or
untouched) store, never an error. -/
theorem deleteImage_eq_ok (parseUrlPath : String → Option String)
    (removeOk : String → Bool) (store : List String) (imageUrl : String) :
    deleteImage parseUrlPath removeOk store imageUrl =
      .ok (deleteImageStore parseUrlPath removeOk store imageUrl) := by
  unfold deleteImage deleteImageStore
  cases deleteImageTry parseUrlPath removeOk store imageUrl <;> rfl

/-- Filtering a list twice with the same predicate is the same as once. -/
theorem filter_self_idem {α : Type} (p : α → Bool) (l : List α) :
    (l.filter p).filter p = l.filter p := by
  induction l with
  | nil => rfl
  | cons a t ih =>
    by_cases h : p a <;> simp [List.filter_cons, h, ih]

/-- Repeating `deleteImage` on the same reference leaves the store where
the first call left it. -/
theorem deleteImageStore_idem (parseUrlPath : String → Option String)
    (removeOk : String → Bool) (store : List String) (imageUrl : String) :
    deleteImageStore parseUrlPath removeOk
        (deleteImageStore parseUrlPath removeOk store imageUrl) imageUrl =
      deleteImageStore parseUrlPath removeOk store imageUrl := by
  rcases hu : parseUrlPath imageUrl with _ | pathname
  · simp [deleteImageStore, deleteImageTry, hu]
  · rcases hd : derivedFilePath pathname with e | filePath
    · simp [deleteImageStore, deleteImageTry, hu, hd]
    · by_cases hr : removeOk filePath
      · simp only [deleteImageStore, deleteImageTry, hu, hd, removeFromStorage,
          hr, if_true]
        exact filter_self_idem _ _
      · simp [deleteImageStore, deleteImageTry, hu, hd, removeFromStorage, hr]

/-- A path removed by `deleteImage` is the file path derived from the given
reference; nothing else ever leaves the store. -/
theorem deleteImageStore_removed_eq (parseUrlPath : String → Option String)
    (removeOk : String → Bool) (store : List String) (imageUrl : String)
    (p : String) (hmem : p ∈ store)
    (hout : p ∉ deleteImageStore parseUrlPath removeOk store imageUrl) :
    ∃ pathname, parseUrlPath imageUrl = some pathname ∧
      derivedFilePath pathname = .ok p := by
  rcases hu : parseUrlPath imageUrl with _ | pathname
  · simp only [deleteImageStore, deleteImageTry, hu] at hout
    exact absurd hmem hout
  · rcases hd : derivedFilePath pathname with e | filePath
    · simp only [deleteImageStore, deleteImageTry, hu, hd] at hout
      exact absurd hmem hout
    · refine ⟨pathname, rfl, ?_⟩
      simp only [deleteImageStore, deleteImageTry, hu, hd, removeFromStorage] at hout
      by_cases hr : removeOk filePath
      · simp only [hr, if_true, List.mem_filter] at hout
        push_neg at hout
        have hpeq : p = filePath := by
          by_contra hne
          have := hout hmem
          simp [hne] at this
        rw [hpeq]
        exact hd
      · simp only [hr, if_false] at hout
        exact absurd hmem hout

/-- C8: for every input string, `deleteImage` returns normally (the catch
absorbs URL-parse failures, missing-bucket errors and store remove errors);
calling it a second time on the same reference also returns normally and
leaves the store unchanged; and no call removes any stored object other
than the one denoted by the reference (the file path derived from it). -/
theorem c8_deleteImage_total_idempotent_targeted
    (parseUrlPath : String → Option String) (removeOk : String → Bool)
    (store : List String) (imageUrl : String) :
    deleteImage parseUrlPath removeOk store imageUrl =
      .ok (deleteImageStore parseUrlPath removeOk store imageUrl) ∧
    (deleteImage parseUrlPath removeOk
        (deleteImageStore parseUrlPath removeOk store imageUrl) imageUrl =
      .ok (deleteImageStore parseUrlPath removeOk store imageUrl)) ∧
    (∀ p, p ∈ store →
      p ∉ deleteImageStore parseUrlPath removeOk store imageUrl →
      ∃ pathname, parseUrlPath imageUrl = some pathname ∧
        derivedFilePath pathname = .ok p) := by
  refine ⟨deleteImage_eq_ok _ _ _ _, ?_, ?_⟩
  · rw [deleteImage_eq_ok, deleteImageStore_idem]
  · intro p hmem hout
    exact deleteImageStore_removed_eq parseUrlPath removeOk store imageUrl p hmem hout

/-- Witness for C8 at a concrete reference and store: deleting
"https://x.supabase.co/storage/v1/object/public/blog-images/u/a.png" from a
store holding that object and an unrelated one removes exactly the denoted
object and returns normally, twice. -/
theorem c8_witness :
    deleteImage (fun _ => some "/storage/v1/object/public/blog-images/u/a.png")
        (fun _ => true) ["u/a.png", "other/b.png"] "ignored" =
      .ok ["other/b.png"] ∧
    deleteImage (fun _ => some "/storage/v1/object/public/blog-images/u/a.png")
        (fun _ => true) ["other/b.png"] "ignored" = .ok ["other/b.png"] := by
  have h := c8_deleteImage_total_idempotent_targeted
    (fun _ => some "/storage/v1/object/public/blog-images/u/a.png")
    (fun _ => true) ["u/a.png", "other/b.png"] "ignored"
  have hstore : deleteImageStore
      (fun _ => some "/storage/v1/object/public/blog-images/u/a.png")
      (fun _ => true) ["u/a.png", "other/b.png"] "ignored" = ["other/b.png"] := by
    decide
  have h1 := h.1
  have h2 := h.2.1
  rw [hstore] at h1 h2
  exact ⟨h1, h2⟩

/-- C9: the validator accepts exactly the allowed MIME types within the
5 MiB ceiling, returns the invalid-type error for a disallowed type and the
too-large error for an allowed type over the ceiling; and `uploadImage`
with an invalid file throws that validation error before any storage call
is made (its storage-call log is empty). -/
theorem c9_validator_blocks_upload (file : FileData) (env : UploadEnv)
    (userId : String) :
    (validateImageFile file = none ↔
      file.mimeType ∈ ALLOWED_TYPES ∧ file.size ≤ MAX_FILE_SIZE) ∧
    (file.mimeType ∉ ALLOWED_TYPES →
      validateImageFile file = some invalidTypeMsg) ∧
    (file.mimeType ∈ ALLOWED_TYPES → file.size > MAX_FILE_SIZE →
      validateImageFile file = some tooLargeMsg) ∧
    (∀ e, validateImageFile file = some e →
      uploadImage env file userId = ⟨.error e, []⟩) := by
  obtain ⟨h1, h2, h3⟩ := validateImageFile_spec file
  refine ⟨h1, h2, h3, ?_⟩
  intro e he
  unfold uploadImage
  rw [he]

/-- Witness for C9: a 6 MiB PNG is rejected with the too-large error and
`uploadImage` performs no storage call on it. -/
theorem c9_witness :
    validateImageFile ⟨"big.png", "image/png", 6 * 1024 * 1024⟩ =
      some tooLargeMsg ∧
    uploadImage ⟨0, none, fun p => p⟩ ⟨"big.png", "image/png", 6 * 1024 * 1024⟩
        "user1" = ⟨.error tooLargeMsg, []⟩ := by
  have h := c9_validator_blocks_upload ⟨"big.png", "image/png", 6 * 1024 * 1024⟩
    ⟨0, none, fun p => p⟩ "user1"
  have hv : validateImageFile ⟨"big.png", "image/png", 6 * 1024 * 1024⟩ =
      some tooLargeMsg :=
    h.2.2.1 (by decide) (by decide)
  exact ⟨hv, h.2.2.2 tooLargeMsg hv⟩

/-- C5: on `fetchComments.rejected`, an aborted request (error name
"AbortError") never writes the error field, and every other repository
failure writes its message (the `rejectWithValue` payload) to the error
field; in both cases the previously loaded comments list is untouched. -/
theorem c5_rejected_abort_silent_failure_surfaced (s : CommentState)
    (payload : Option String) :
    (fetchRejected s "AbortError" payload).error = s.error ∧
    (fetchRejected s "AbortError" payload).comments = s.comments ∧
    (∀ errName, errName ≠ "AbortError" →
      (fetchRejected s errName payload).error = payload ∧
      (fetchRejected s errName payload).comments = s.comments) := by
  refine ⟨?_, ?_, ?_⟩
  · simp [fetchRejected]
  · simp [fetchRejected]
  · intro errName h
    simp [fetchRejected, h]

/-- Witness for C5 at a concrete state: a previously loaded list survives
both an abort (error untouched) and a genuine failure (message written). -/
theorem c5_witness :
    (fetchRejected ⟨[⟨"c1", "b1", "u1", "hi", none, 3⟩], true, none⟩
        "AbortError" (some "boom")).error = none ∧
    (fetchRejected ⟨[⟨"c1", "b1", "u1", "hi", none, 3⟩], true, none⟩
        "Rejected" (some "boom")).error = some "boom" ∧
    (fetchRejected ⟨[⟨"c1", "b1", "u1", "hi", none, 3⟩], true, none⟩
        "Rejected" (some "boom")).comments = [⟨"c1", "b1", "u1", "hi", none, 3⟩] := by
  have h := c5_rejected_abort_silent_failure_surfaced
    ⟨[⟨"c1", "b1", "u1", "hi", none, 3⟩], true, none⟩ (some "boom")
  have h2 := h.2.2 "Rejected" (by decide)
  exact ⟨h.1, h2.1, h2.2⟩

/-- C10: `deleteComment` deletes the row first — a row error is rethrown
and the blob store is untouched; on row success it returns the given
commentId for every storage behaviour and whether or not an imageUrl was
supplied. -/
theorem c10_deleteComment_row_first_then_best_effort (env : ServiceEnv)
    (rowDeleteErr : Option String) (store : List String)
    (commentId : String) (imageUrl : Option String) :
    (∀ e, rowDeleteErr = some e →
      deleteComment env rowDeleteErr store commentId imageUrl =
        ⟨.error e, store⟩) ∧
    (rowDeleteErr = none →
      (deleteComment env rowDeleteErr store commentId imageUrl).result =
        .ok commentId) := by
  constructor
  · intro e he
    rw [he]
    rfl
  · intro he
    rw [he]
    cases imageUrl <;> rfl

/-- Witness for C10: with a failing row delete the store keeps the blob;
with a succeeding row delete the id is returned even though the blob
delete is made to fail. -/
theorem c10_witness :
    deleteComment ⟨fun _ => none, fun _ => false, none, 0, fun p => p⟩
        (some "row error") ["u/a.png"] "c9" (some "bad url") =
      ⟨.error "row error", ["u/a.png"]⟩ ∧
    (deleteComment ⟨fun _ => none, fun _ => false, none, 0, fun p => p⟩
        none ["u/a.png"] "c9" (some "bad url")).result = .ok "c9" := by
  have h := c10_deleteComment_row_first_then_best_effort
    ⟨fun _ => none, fun _ => false, none, 0, fun p => p⟩
    (some "row error") ["u/a.png"] "c9" (some "bad url")
  have h2 := c10_deleteComment_row_first_then_best_effort
    ⟨fun _ => none, fun _ => false, none, 0, fun p => p⟩
    none ["u/a.png"] "c9" (some "bad url")
  exact ⟨h.1 "row error" rfl, h2.2 rfl⟩

/-- `applyEdits` never touches `created_at`. -/
theorem applyEdits_created (row : CommentRow)
    (es : List (String × Option String × Nat)) :
    (applyEdits row es).created_at = row.created_at := by
  induction es generalizing row with
  | nil => rfl
  | cons e es ih => exact ih _

/-- After at least one edit, `updated_at` is one of the edit times. -/
theorem applyEdits_updated_of_ne (row : CommentRow)
    (es : List (String × Option String × Nat)) (h : es ≠ []) :
    ∃ e ∈ es, (applyEdits row es).updated_at = e.2.2 := by
  induction es generalizing row with
  | nil => exact absurd rfl h
  | cons e es ih =>
    cases es with
    | nil => exact ⟨e, by simp, rfl⟩
    | cons f fs =>
      obtain ⟨g, hg, hgeq⟩ := ih (applyUpdate row e.1 e.2.1 e.2.2) (by simp)
      exact ⟨g, List.mem_cons_of_mem _ hg, hgeq⟩

/-- C6: a row carries both timestamps; creation stamps them equal (the
insert payload has no `updated_at`, both columns default to the same
`NOW()`); only `applyUpdate` — the update operation — stamps `updated_at`;
hence, provided every edit happens strictly after creation, the two
timestamps are equal exactly when the comment was never edited. -/
theorem c6_timestamps_equal_iff_never_edited (content : String)
    (img : Option String) (t : Nat)
    (edits : List (String × Option String × Nat))
    (h : ∀ e ∈ edits, t < e.2.2) :
    (insertCommentRow content img t).updated_at =
      (insertCommentRow content img t).created_at ∧
    (∀ row c i now, (applyUpdate row c i now).updated_at = now ∧
      (applyUpdate row c i now).created_at = row.created_at) ∧
    ((applyEdits (insertCommentRow content img t) edits).updated_at =
      (applyEdits (insertCommentRow content img t) edits).created_at ↔
      edits = []) := by
  refine ⟨rfl, fun row c i now => ⟨rfl, rfl⟩, ?_, ?_⟩
  · intro heq
    by_contra hne
    obtain ⟨e, he, heq2⟩ :=
      applyEdits_updated_of_ne (insertCommentRow content img t) edits hne
    rw [applyEdits_created] at heq
    have ht := h e he
    rw [heq2] at heq
    simp [insertCommentRow] at heq
    omega
  · intro heq
    rw [heq]
    rfl

/-- Witness for C6: created and updated start equal; a single later edit
makes them differ. -/
theorem c6_witness :
    (insertCommentRow "hello" none 0).updated_at =
      (insertCommentRow "hello" none 0).created_at ∧
    ¬ ((applyEdits (insertCommentRow "hello" none 0) [("x", none, 1)]).updated_at =
        (applyEdits (insertCommentRow "hello" none 0) [("x", none, 1)]).created_at) := by
  have h := c6_timestamps_equal_iff_never_edited "hello" none 0 [("x", none, 1)]
    (by intro e he; simp at he; rw [he]; decide)
  refine ⟨h.1, fun heq => ?_⟩
  have := h.2.2.mp heq
  simp at this

/-- C3 fails on the code: on the edit-replace path, `updateComment` passes
the literal string "updated" — not the uploading user's owner identifier —
to `uploadImage`, so the stored object path is
"updated/updated_{time}.{ext}" for every user; on comment creation the
path is derived from the author's identifier as the claim states. The
concrete run below exhibits both. -/
theorem c3_code_divergence :
    (updateComment ⟨fun _ => none, fun _ => true, none, 7, fun p => p⟩ none []
        "c1" "hi" (some ⟨"photo.png", "image/png", 10⟩) none false).uploadCalls =
      ["updated/updated_7.png"] ∧
    (createComment ⟨fun _ => none, fun _ => true, none, 7, fun p => p⟩ none
        "b1" "alice" "hi" (some ⟨"photo.png", "image/png", 10⟩)).uploadCalls =
      ["alice/alice_7.png"] := by
  constructor <;> decide

/-- C7: during an active edit session, `saveEdit` performs no network call
exactly when the draft text trims to empty and the attachment disposition
is neither keep-existing nor replace-with-new-file; in every other case it
dispatches the repository update with the draft. -/
theorem c7_saveEdit_rejects_empty_draft (cid : String) (editContent : String)
    (editFile : Option FileData) (keepOldImage : Bool)
    (oldImageUrl : Option String) :
    (saveEdit (some cid) editContent editFile keepOldImage oldImageUrl = none ↔
      jsTrim editContent = "" ∧ editFile = none ∧ keepOldImage = false) ∧
    (¬ (jsTrim editContent = "" ∧ editFile = none ∧ keepOldImage = false) →
      saveEdit (some cid) editContent editFile keepOldImage oldImageUrl =
        some ⟨cid, editContent, editFile, oldImageUrl, keepOldImage⟩) := by
  unfold saveEdit
  by_cases h : jsTrim editContent = "" ∧ editFile = none ∧ keepOldImage = false
  · simp [h]
  · simp [h]

/-- Witness for C7: a whitespace-only draft with the image explicitly
removed dispatches nothing; the same draft with the existing image kept
dispatches the update. -/
theorem c7_witness :
    saveEdit (some "c1") "  " none false (some "old.png") = none ∧
    saveEdit (some "c1") "  " none true (some "old.png") =
      some ⟨"c1", "  ", none, some "old.png", true⟩ := by
  have h1 := c7_saveEdit_rejects_empty_draft "c1" "  " none false (some "old.png")
  have h2 := c7_saveEdit_rejects_empty_draft "c1" "  " none true (some "old.png")
  exact ⟨h1.1.mpr (by decide), h2.2 (by decide)⟩

/-- C4 fails on the code: the creation form pairs every replacement or
clearing of its preview with a revocation, but the edit session does not —
selecting a replacement file while editing creates an object-URL handle
that is dropped unrevoked by cancelEditing (and by a second selection, by
handleRemoveEditImage, and by the unmount cleanup, which only revokes the
creation-form handle). In the run below one handle is created in the edit
session and the revocation ledger stays empty through cancel and unmount. -/
theorem c4_code_divergence :
    (runForm initialPreviewWorld
        [.startEdit "c1" "hi" none,
         .editImageSelect ⟨"p.png", "image/png", 5⟩,
         .cancelEdit, .unmountCleanup]).created = [0] ∧
    (runForm initialPreviewWorld
        [.startEdit "c1" "hi" none,
         .editImageSelect ⟨"p.png", "image/png", 5⟩,
         .cancelEdit, .unmountCleanup]).revoked = [] ∧
    (runForm initialPreviewWorld
        [.startEdit "c1" "hi" none,
         .editImageSelect ⟨"p.png", "image/png", 5⟩,
         .cancelEdit, .unmountCleanup]).editPreviewUrl = none := by
  refine ⟨?_, ?_, ?_⟩ <;> decide

/-- C1 fails on the code: a refetch dispatched by post A's realtime
subscription is never captured, so switching to post B aborts only the
effect's own fetch; when the stray refetch resolves after B's fetch, the
unguarded `fetchComments.fulfilled` reducer commits A's comments while B
is the displayed post. The run below mounts A, receives a realtime event
on A (request 1), switches to B (request 2), resolves request 2, then
resolves the stale request 1 — and ends showing A's comments under B. -/
theorem c1_code_divergence :
    (runThread dbFix initialThreadWorld
        [.mount "A", .realtime "A", .switch "B",
         .resolveOk 2, .resolveOk 1]).activeBlog = some "B" ∧
    (runThread dbFix initialThreadWorld
        [.mount "A", .realtime "A", .switch "B",
         .resolveOk 2, .resolveOk 1]).state.comments = dbFix "A" ∧
    dbFix "A" ≠ dbFix "B" := by
  refine ⟨?_, ?_, ?_⟩ <;> decide

/-- C2: when the post row is found and the comments query and row delete
succeed, `deleteBlog` attempts a blob delete for the post's own reference
and for the reference of every comment whose `blog_id` matches — computed
while the rows still exist — and then deletes the row, returning the id;
this holds for EVERY storage behaviour (`parseUrlPath`, `removeOk`), so no
single blob-delete failure aborts the remaining deletes or the row delete. -/
theorem c2_deleteBlog_best_effort_cleanup_then_row (env : DeleteBlogEnv)
    (store : List String) (db : Db) (id : String) (blogData : BlogRow)
    (hfind : db.blogs.find? (fun b => b.id == id) = some blogData)
    (hcq : env.commentsQueryErr = none) (hrd : env.rowDeleteErr = none) :
    (deleteBlog env store db id).deleteAttempts =
      (match blogData.image_url with | some u => [u] | none => []) ++
        (db.comments.filter (fun c => c.blog_id == id)).filterMap
          (fun c => c.image_url) ∧
    (deleteBlog env store db id).result = .ok id ∧
    (deleteBlog env store db id).db.blogs =
      db.blogs.filter (fun b => ¬ (b.id == id)) := by
  unfold deleteBlog
  rw [hfind, hcq, hrd]
  exact ⟨rfl, rfl, rfl⟩

/-- Witness for C2: a post with its own attachment and three comments (two
with attachments, one without, plus a comment of another post), with every
storage remove failing — all three references are still attempted, in
order, and the row delete still returns the id. -/
theorem c2_witness :
    (deleteBlog ⟨fun _ => none, fun _ => false, none, none⟩ ["s/a.png"]
        ⟨[⟨"b1", some "u/b.png"⟩],
         [⟨"b1", some "u/c1.png"⟩, ⟨"b1", none⟩, ⟨"b1", some "u/c2.png"⟩,
          ⟨"b2", some "u/x.png"⟩]⟩ "b1").deleteAttempts =
      ["u/b.png", "u/c1.png", "u/c2.png"] ∧
    (deleteBlog ⟨fun _ => none, fun _ => false, none, none⟩ ["s/a.png"]
        ⟨[⟨"b1", some "u/b.png"⟩],
         [⟨"b1", some "u/c1.png"⟩, ⟨"b1", none⟩, ⟨"b1", some "u/c2.png"⟩,
          ⟨"b2", some "u/x.png"⟩]⟩ "b1").result = .ok "b1" := by
  have h := c2_deleteBlog_best_effort_cleanup_then_row
    ⟨fun _ => none, fun _ => false, none, none⟩ ["s/a.png"]
    ⟨[⟨"b1", some "u/b.png"⟩],
     [⟨"b1", some "u/c1.png"⟩, ⟨"b1", none⟩, ⟨"b1", some "u/c2.png"⟩,
      ⟨"b2", some "u/x.png"⟩]⟩ "b1" ⟨"b1", some "u/b.png"⟩
    (by decide) rfl rfl
  constructor
  · rw [h.1]
    decide
  · exact h.2.1

end Roblog
